import Mathlib

/-
Shallow embedding of scripts/update_models.py.

The script is a single sequential pipeline: fetch a ranked list of model
names (primary API, then a web-page fallback), resolve the names through a
static mapping table into per-provider id groups, and rewrite two fields
per endpoint of a YAML configuration document, writing the file back and
comparing raw text to report updated versus no change.

External calls (HTTP requests, the two regex passes over the fallback
page, json decoding of the responses) are modelled by their observable
outcomes, passed in as data; everything the script itself computes is
translated directly.
-/

namespace UpdateModels

/-- One record of the JSON array returned by the primary leaderboard API.
Only the two fields the script reads are modelled; none means the field is
absent from the record. -/
structure ApiRecord where
  model : Option String
  name : Option String
deriving DecidableEq

/-- The cutoff constant TOP_N of the script, 30. -/
def TOP_N : Nat := 30

/-- The Python expression reading one display name from a record: the
model field when it is present and truthy (a non-empty string), otherwise
the name field, defaulting to the empty string when that is absent. -/
def recordName (r : ApiRecord) : String :=
  match r.model with
  | some m => if m = "" then r.name.getD "" else m
  | none => r.name.getD ""

/-- The list the first try block returns when the decoded payload is a
list: map the first TOP_N raw records to their names, then drop the empty
names. -/
def fetchPrimaryNames (data : List ApiRecord) : List String :=
  ((data.take TOP_N).map recordName).filter (fun m => m != "")

/-- Outcome of one HTTP request in the script: err models any exception
raised by the request, the status check or response decoding; ok carries
the decoded payload. -/
inductive Fetch (α : Type) where
  | err : Fetch α
  | ok : α → Fetch α
deriving DecidableEq

/-- Payload of the primary API response after JSON decoding: either a
JSON array of records, or any non-list JSON value. -/
inductive ApiData where
  | arr : List ApiRecord → ApiData
  | nonList : ApiData
deriving DecidableEq

/-- Observable outcomes of the two regex passes over the fallback page
text. blob is none when the NEXT DATA search finds no match, and some b
when it matches, with b recording whether json.loads on the captured
group succeeds. modelMatches lists, in document order, the captures of
the repeated model name regex. -/
structure PageData where
  blob : Option Bool
  modelMatches : List String
deriving DecidableEq

/-- The two external data sources consulted by fetch_leaderboard. -/
structure World where
  apiResp : Fetch ApiData
  pageResp : Fetch PageData
deriving DecidableEq

/-- Result of running one try block of the script: raised when an
exception escapes the body (to be caught by the except clause), value
none when the body runs to its end without returning, value (some r)
when it executes a return statement with result r. -/
inductive Attempt (α : Type) where
  | raised : Attempt α
  | value : Option α → Attempt α
deriving DecidableEq

/-- Body of the first try block of fetch_leaderboard: a failed request or
decode raises; a decoded list returns the filtered first names; any other
payload falls through to the end of the block. -/
def primaryTry (resp : Fetch ApiData) : Attempt (List String) :=
  match resp with
  | .err => .raised
  | .ok (.arr items) => .value (some (fetchPrimaryNames items))
  | .ok .nonList => .value none

/-- Body of the second try block of fetch_leaderboard. When the NEXT DATA
blob is found but json.loads on it raises, the exception escapes before
the second regex pass runs; otherwise the model name regex matches are
returned (first TOP_N) when there are any, and the block falls through
when there are none. -/
def fallbackTry (resp : Fetch PageData) : Attempt (List String) :=
  match resp with
  | .err => .raised
  | .ok pd =>
    match pd.blob with
    | some false => .raised
    | _ =>
      if pd.modelMatches = [] then .value none
      else .value (some (pd.modelMatches.take TOP_N))

/-- fetch_leaderboard: a first try that returns short-circuits; a raised
or fallen-through first try moves on to the fallback try; a raised or
fallen-through fallback ends in the final return of the empty list. -/
def fetch_leaderboard (w : World) : List String :=
  match primaryTry w.apiResp with
  | .value (some r) => r
  | _ =>
    match fallbackTry w.pageResp with
    | .value (some r) => r
    | _ => []

/-- One value of the mapping table: provider and canonical model id. -/
structure MappingInfo where
  provider : String
  model_id : String
deriving DecidableEq

/-- First-match association lookup: the view of a Python dict used here
(dict keys are unique, so first match is the only match). -/
def alookup {α : Type} : List (String × α) → String → Option α
  | [], _ => none
  | (k, v) :: rest, key => if k = key then some v else alookup rest key

/-- load_mapping drops the comment entries of the mapping file, the keys
starting with an underscore: a key starts with the one-character marker
exactly when its first character is an underscore. -/
def load_mapping (raw : List (String × MappingInfo)) : List (String × MappingInfo) :=
  raw.filter (fun p => !(p.1.data.head? == some '_'))

/-- provider_models.setdefault followed by append, on an insertion-ordered
association list: append mid to the existing group of prov, or create the
group at the end on first use. -/
def appendTo : List (String × List String) → String → String → List (String × List String)
  | [], prov, mid => [(prov, [mid])]
  | (k, v) :: rest, prov, mid =>
    if k = prov then (k, v ++ [mid]) :: rest
    else (k, v) :: appendTo rest prov mid

/-- One iteration of the matching loop of main: a name present as an
exact key of the mapping appends its model id to its provider group and
bumps the match count; any other name changes nothing. -/
def resolveStep (mapping : List (String × MappingInfo))
    (acc : List (String × List String) × Nat) (nm : String) :
    List (String × List String) × Nat :=
  match alookup mapping nm with
  | some info => (appendTo acc.1 info.provider info.model_id, acc.2 + 1)
  | none => acc

/-- The matching loop of main: iterate the fetched names in rank order,
grouping mapped names by provider and counting matches. -/
def resolve (mapping : List (String × MappingInfo)) (names : List String) :
    List (String × List String) × Nat :=
  names.foldl (resolveStep mapping) ([], 0)

/-- One built-in endpoint block of the document: the default model list,
the optional titleModel, and all other fields of the block, kept opaque. -/
structure Endpoint where
  modelsDefault : List String
  titleModel : Option String
  extra : List (String × String)
deriving DecidableEq

/-- One entry of the custom endpoint list. The script reads the name with
a get defaulting to the empty string, so an absent name is modelled as
the empty string. -/
structure CustomEndpoint where
  name : String
  modelsDefault : List String
  titleModel : Option String
  extra : List (String × String)
deriving DecidableEq

/-- The configuration document: the endpoints mapping split into its
named endpoint blocks (association list in document order), the optional
custom list, and the remaining top-level content, kept opaque. -/
structure ConfigDocument where
  builtins : List (String × Endpoint)
  custom : Option (List CustomEndpoint)
  extra : List (String × String)
deriving DecidableEq

/-- The two built-in endpoint names the update loop of update_yaml
iterates over. -/
def builtin_names : List String := ["openAI", "anthropic"]

/-- Effect of update_yaml on one named endpoint block: the block changes
exactly when its key is one of the built-in names and provider_models
holds a non-empty list for it; then the default list is replaced and,
when the list has more than one element, titleModel becomes its last
element. -/
def updateBuiltin (pm : List (String × List String)) (k : String) (e : Endpoint) : Endpoint :=
  if k ∈ builtin_names then
    match alookup pm k with
    | some models =>
      if models = [] then e
      else
        { e with
          modelsDefault := models,
          titleModel := if 1 < models.length then some (models.getLastD "") else e.titleModel }
    | none => e
  else e

/-- Effect of update_yaml on one custom endpoint entry: same rule, keyed
by the entry name. -/
def updateCustom (pm : List (String × List String)) (c : CustomEndpoint) : CustomEndpoint :=
  match alookup pm c.name with
  | some models =>
    if models = [] then c
    else
      { c with
        modelsDefault := models,
        titleModel := if 1 < models.length then some (models.getLastD "") else c.titleModel }
  | none => c

/-- update_yaml, per endpoint entry: the source loops over the two
built-in names of a dict, which on the association-list view updates each
block through updateBuiltin; the loop over the custom list applies
updateCustom to each entry. Nothing else of the document is touched. -/
def update_yaml (pm : List (String × List String)) (cfg : ConfigDocument) : ConfigDocument :=
  { cfg with
    builtins := cfg.builtins.map (fun p => (p.1, updateBuiltin pm p.1 p.2)),
    custom := cfg.custom.map (fun l => l.map (updateCustom pm)) }

def dumpStrList (l : List String) : String :=
  "[" ++ String.intercalate ", " l ++ "]"

def dumpFields (kvs : List (String × String)) : String :=
  String.join (kvs.map (fun p => p.1 ++ ": " ++ p.2 ++ ";"))

def dumpTitle : Option String → String
  | some t => "titleModel: " ++ t ++ ";"
  | none => ""

def dumpEndpoint (e : Endpoint) : String :=
  "models.default: " ++ dumpStrList e.modelsDefault ++ ";" ++
    dumpTitle e.titleModel ++ dumpFields e.extra

def dumpCustomEntry (c : CustomEndpoint) : String :=
  "name: " ++ c.name ++ ";" ++ "models.default: " ++ dumpStrList c.modelsDefault ++ ";" ++
    dumpTitle c.titleModel ++ dumpFields c.extra

/-- Deterministic serializer standing for yaml.dump with the fixed options
of the script: a fixed function of the structured document. -/
def dumpConfig (cfg : ConfigDocument) : String :=
  "endpoints:" ++
  String.join (cfg.builtins.map (fun p => p.1 ++ ":" ++ dumpEndpoint p.2)) ++
  (match cfg.custom with
   | some l => "custom:" ++ String.join (l.map dumpCustomEntry)
   | none => "") ++
  dumpFields cfg.extra

/-- The on-disk YAML file: text is the raw byte content, doc the document
yaml.safe_load reads from it. Writing stores dumpConfig of the new
document; the dump-then-load round trip is modelled as the identity on
the structured document. -/
structure FileState where
  text : String
  doc : ConfigDocument
deriving DecidableEq

/-- The console outcomes main can end a run with. -/
inductive Report where
  | fetchError : Report
  | zeroMatches : Report
  | noChange : Report
  | updated : Report
deriving DecidableEq

/-- Exit status, final file content and reported outcome of one run. -/
structure RunResult where
  exit : Nat
  file : FileState
  report : Report
deriving DecidableEq

/-- The read-update-write-compare tail of main: dump the updated document,
write it back, re-read, and compare the old raw text with the new text to
pick the reported outcome. -/
def runUpdate (pm : List (String × List String)) (fs : FileState) : FileState × Report :=
  (⟨dumpConfig (update_yaml pm fs.doc), update_yaml pm fs.doc⟩,
   if fs.text = dumpConfig (update_yaml pm fs.doc) then Report.noChange else Report.updated)

/-- The entry point: fetch (exit 1 on an empty result), resolve the names
against the loaded mapping (exit 0 with a warning and no file access when
nothing matched), otherwise update the file and report the comparison. -/
def main (w : World) (rm : List (String × MappingInfo)) (fs : FileState) : RunResult :=
  if fetch_leaderboard w = [] then ⟨1, fs, Report.fetchError⟩
  else if (resolve (load_mapping rm) (fetch_leaderboard w)).2 = 0 then
    ⟨0, fs, Report.zeroMatches⟩
  else
    ⟨0, (runUpdate (resolve (load_mapping rm) (fetch_leaderboard w)).1 fs).1,
      (runUpdate (resolve (load_mapping rm) (fetch_leaderboard w)).1 fs).2⟩

/-- Spec-side view for C2: the id list a provider group should carry, read
off the fetched names in rank order. -/
def idsOf (mapping : List (String × MappingInfo)) (names : List String) (p : String) :
    List String :=
  names.filterMap (fun nm =>
    match alookup mapping nm with
    | some info => if info.provider = p then some info.model_id else none
    | none => none)

/-- The id list stored for provider p, the empty list when p has no
group. -/
def groupIds (pm : List (String × List String)) (p : String) : List String :=
  (alookup pm p).getD []

/-- Claim wording for C5: the name of a record is read from its model
field, falling back to the name field only when model is absent. -/
def recordNameClaimed (r : ApiRecord) : String :=
  match r.model with
  | some m => m
  | none => r.name.getD ""

/-- Claim wording for C5: of all the non-empty names of the array, the
first TOP_N, in order. -/
def primaryClaimedSpec (data : List ApiRecord) : List String :=
  ((data.map recordNameClaimed).filter (fun m => m != "")).take TOP_N

/-- Amended wording for C5: a record reads as its model field when that
field is present and non-empty, otherwise as its name field, the empty
string when that is absent. -/
def recordNameAmended (r : ApiRecord) : String :=
  match r.model with
  | some m => if m ≠ "" then m else r.name.getD ""
  | none => r.name.getD ""

/-- Amended wording for C5: the non-empty names among the first TOP_N
records, in record order. -/
def primaryAmendedSpec (data : List ApiRecord) : List String :=
  (data.take TOP_N).foldr
    (fun r acc => if recordNameAmended r = "" then acc else recordNameAmended r :: acc) []

/-- Claim wording for C6: the second regex extraction is attempted
regardless of the blob parse, returning the first TOP_N matches in
document order. -/
def fallbackClaimedSpec (pd : PageData) : List String :=
  pd.modelMatches.take TOP_N

/-- The try block raised, fell through, or returned the empty list: its
source failed or yielded no names. -/
@[reducible] def attemptYieldsNoNames (a : Attempt (List String)) : Prop :=
  match a with
  | .raised => True
  | .value none => True
  | .value (some l) => l = []

/-- An endpoint key the update loop leaves alone: not a built-in name, or
without a matched group, or with an empty matched group. -/
@[reducible] def untouchedKey (pm : List (String × List String)) (k : String) : Prop :=
  k ∉ builtin_names ∨ alookup pm k = none ∨ alookup pm k = some []

/-- A custom entry name the update loop leaves alone. -/
@[reducible] def untouchedName (pm : List (String × List String)) (nm : String) : Prop :=
  alookup pm nm = none ∨ alookup pm nm = some []

/-- Provider p names no endpoint of the document: no built-in block key
and no custom entry name equals p. -/
@[reducible] def noEndpointFor (p : String) (cfg : ConfigDocument) : Prop :=
  (∀ q ∈ cfg.builtins, q.1 ≠ p) ∧ (∀ c ∈ cfg.custom.getD [], c.name ≠ p)

/-- Sample endpoint block used by concrete witnesses. -/
def eOpenAI : Endpoint := ⟨["old1", "old2"], some "told", [("k1", "v1")]⟩

/-- Sample custom entry used by concrete witnesses. -/
def cGoogle : CustomEndpoint := ⟨"google", ["g-old"], none, []⟩

/-- Sample document used by concrete witnesses. -/
def cfgS : ConfigDocument :=
  ⟨[("openAI", eOpenAI), ("bedrock", ⟨["b1"], none, []⟩)], some [cGoogle], [("version", "1")]⟩

/-- Sample provider groups used by concrete witnesses. -/
def pmS : List (String × List String) :=
  [("openAI", ["gpt-a", "gpt-b", "gpt-c"]), ("google", ["gem-1"])]

/-- Sample mapping table used by concrete witnesses. -/
def mapS : List (String × MappingInfo) :=
  [("A", ⟨"openAI", "a-id"⟩), ("B", ⟨"openAI", "b-id"⟩), ("G", ⟨"google", "g-id"⟩)]

/-- Sample world whose primary source yields the single name A. -/
def wA : World := ⟨.ok (.arr [⟨some "A", none⟩]), .err⟩

/-- Sample file whose raw text is not the canonical serialization of its
document. -/
def fsA : FileState := ⟨"orig", cfgS⟩

/-- Helper: a map whose function fixes every member is the identity. -/
theorem list_map_self {α : Type} (l : List α) (f : α → α) (h : ∀ a ∈ l, f a = a) :
    l.map f = l := by
  induction l with
  | nil => rfl
  | cons a t ih =>
    rw [List.map_cons, h a (List.mem_cons_self a t),
      ih (fun b hb => h b (List.mem_cons_of_mem a hb))]

/-- Helper: maps of pointwise equal functions agree. -/
theorem list_map_congr {α β : Type} (l : List α) (f g : α → β) (h : ∀ a ∈ l, f a = g a) :
    l.map f = l.map g := by
  induction l with
  | nil => rfl
  | cons a t ih =>
    rw [List.map_cons, List.map_cons, h a (List.mem_cons_self a t),
      ih (fun b hb => h b (List.mem_cons_of_mem a hb))]

/-- Helper: how one setdefault-append step changes a lookup. -/
theorem alookup_appendTo (pm : List (String × List String)) (prov mid p : String) :
    alookup (appendTo pm prov mid) p =
      if p = prov then some ((alookup pm prov).getD [] ++ [mid]) else alookup pm p := by
  induction pm with
  | nil =>
    by_cases h : p = prov
    · simp [appendTo, alookup, h]
    · simp [appendTo, alookup, h, Ne.symm h]
  | cons head rest ih =>
    obtain ⟨k, v⟩ := head
    by_cases hk : k = prov
    · subst hk
      by_cases hp : p = k
      · subst hp
        simp [appendTo, alookup]
      · simp [appendTo, alookup, hp, Ne.symm hp]
    · by_cases hp : k = p
      · subst hp
        have hpp : ¬(k = prov) := hk
        simp [appendTo, alookup, hk, fun hh : k = prov => hk hh]
      · simp [appendTo, alookup, hk, hp, ih]

/-- Helper: how one setdefault-append step changes a group. -/
theorem groupIds_appendTo (pm : List (String × List String)) (prov mid p : String) :
    groupIds (appendTo pm prov mid) p = groupIds pm p ++ (if p = prov then [mid] else []) := by
  by_cases h : p = prov
  · subst h
    simp [groupIds, alookup_appendTo]
  · simp [groupIds, alookup_appendTo, h]

/-- Helper: the matching loop, run from any accumulator, extends each
group by the ids its names contribute, in order. -/
theorem resolve_foldl (mapping : List (String × MappingInfo)) (names : List String) :
    ∀ (pm : List (String × List String)) (n : Nat) (p : String),
      groupIds (List.foldl (resolveStep mapping) (pm, n) names).1 p =
        groupIds pm p ++ idsOf mapping names p := by
  induction names with
  | nil =>
    intro pm n p
    simp [idsOf]
  | cons nm rest ih =>
    intro pm n p
    rw [List.foldl_cons]
    cases h : alookup mapping nm with
    | none =>
      rw [show resolveStep mapping (pm, n) nm = (pm, n) by simp [resolveStep, h]]
      rw [ih pm n p]
      simp [idsOf, List.filterMap_cons, h]
    | some info =>
      rw [show resolveStep mapping (pm, n) nm =
            (appendTo pm info.provider info.model_id, n + 1) by simp [resolveStep, h]]
      rw [ih _ _ p, groupIds_appendTo]
      simp only [idsOf, List.filterMap_cons, h]
      by_cases hp : p = info.provider
      · subst hp
        simp
      · have hp2 : ¬(info.provider = p) := fun hh => hp hh.symm
        simp [hp, hp2]

/-- Helper: blocks with an untouched key are fixed by the update. -/
theorem updateBuiltin_untouched {pm : List (String × List String)} {k : String}
    {e : Endpoint} (h : untouchedKey pm k) : updateBuiltin pm k e = e := by
  rcases h with h | h | h
  · simp [updateBuiltin, h]
  · simp [updateBuiltin, h]
  · simp [updateBuiltin, h]

/-- Helper: entries with an untouched name are fixed by the update. -/
theorem updateCustom_untouched {pm : List (String × List String)}
    {c : CustomEndpoint} (h : untouchedName pm c.name) : updateCustom pm c = c := by
  rcases h with h | h
  · simp [updateCustom, h]
  · simp [updateCustom, h]

/-- Helper: the update never changes the opaque fields of a block. -/
theorem updateBuiltin_extra (pm : List (String × List String)) (k : String) (e : Endpoint) :
    (updateBuiltin pm k e).extra = e.extra := by
  by_cases hk : k ∈ builtin_names
  · cases h : alookup pm k with
    | none => simp [updateBuiltin, hk, h]
    | some ms =>
      by_cases hms : ms = [] <;> simp [updateBuiltin, hk, h, hms]
  · simp [updateBuiltin, hk]

/-- Helper: the update never changes the name of a custom entry. -/
theorem updateCustom_name (pm : List (String × List String)) (c : CustomEndpoint) :
    (updateCustom pm c).name = c.name := by
  cases h : alookup pm c.name with
  | none => simp [updateCustom, h]
  | some ms =>
    by_cases hms : ms = [] <;> simp [updateCustom, h, hms]

/-- Helper: the update never changes the opaque fields of a custom entry. -/
theorem updateCustom_extra (pm : List (String × List String)) (c : CustomEndpoint) :
    (updateCustom pm c).extra = c.extra := by
  cases h : alookup pm c.name with
  | none => simp [updateCustom, h]
  | some ms =>
    by_cases hms : ms = [] <;> simp [updateCustom, h, hms]

/-- Helper: updating a block twice with the same groups is updating it
once. -/
theorem updateBuiltin_idem (pm : List (String × List String)) (k : String) (e : Endpoint) :
    updateBuiltin pm k (updateBuiltin pm k e) = updateBuiltin pm k e := by
  by_cases hk : k ∈ builtin_names
  · cases h : alookup pm k with
    | none => simp [updateBuiltin, hk, h]
    | some ms =>
      by_cases hms : ms = []
      · simp [updateBuiltin, hk, h, hms]
      · by_cases hl : 1 < ms.length <;>
          simp [updateBuiltin, hk, h, hms, hl]
  · simp [updateBuiltin, hk]

/-- Helper: updating a custom entry twice with the same groups is
updating it once. -/
theorem updateCustom_idem (pm : List (String × List String)) (c : CustomEndpoint) :
    updateCustom pm (updateCustom pm c) = updateCustom pm c := by
  cases h : alookup pm c.name with
  | none =>
    have h1 : updateCustom pm c = c := by simp [updateCustom, h]
    rw [h1, h1]
  | some ms =>
    by_cases hms : ms = []
    · have h1 : updateCustom pm c = c := by simp [updateCustom, h, hms]
      rw [h1, h1]
    · by_cases hl : 1 < ms.length <;>
        simp [updateCustom, h, hms, hl]

/-- Helper: update_yaml is idempotent on the document. -/
theorem update_yaml_idem (pm : List (String × List String)) (cfg : ConfigDocument) :
    update_yaml pm (update_yaml pm cfg) = update_yaml pm cfg := by
  obtain ⟨bs, cu, ex⟩ := cfg
  simp only [update_yaml, ConfigDocument.mk.injEq]
  refine ⟨?_, ?_, trivial⟩
  · apply list_map_self
    intro a ha
    obtain ⟨b, hb, rfl⟩ := List.mem_map.1 ha
    simp [updateBuiltin_idem]
  · cases cu with
    | none => rfl
    | some cs =>
      simp only [Option.map_some']
      apply congrArg
      apply list_map_self
      intro a ha
      obtain ⟨b, hb, rfl⟩ := List.mem_map.1 ha
      exact updateCustom_idem pm b

/-- Helper: when no endpoint of the document has a non-empty matched
group, update_yaml is the identity. -/
theorem update_noop (pm : List (String × List String)) (cfg : ConfigDocument)
    (h1 : ∀ q ∈ cfg.builtins, q.1 ∈ builtin_names →
      (alookup pm q.1 = none ∨ alookup pm q.1 = some []))
    (h2 : ∀ c ∈ cfg.custom.getD [], alookup pm c.name = none ∨ alookup pm c.name = some []) :
    update_yaml pm cfg = cfg := by
  obtain ⟨bs, cu, ex⟩ := cfg
  simp only [update_yaml, ConfigDocument.mk.injEq]
  refine ⟨?_, ?_, trivial⟩
  · apply list_map_self
    intro q hq
    have hu : untouchedKey pm q.1 := by
      by_cases hk : q.1 ∈ builtin_names
      · rcases h1 q hq hk with h | h
        · exact Or.inr (Or.inl h)
        · exact Or.inr (Or.inr h)
      · exact Or.inl hk
    rw [updateBuiltin_untouched hu]
  · cases cu with
    | none => rfl
    | some cs =>
      simp only [Option.map_some']
      apply congrArg
      apply list_map_self
      intro c hc
      exact updateCustom_untouched (h2 c hc)

/-- Helper: removing a provider from the groups does not change lookups
at other keys. -/
theorem alookup_filter_ne (pm : List (String × List String)) (p k : String) (h : k ≠ p) :
    alookup (pm.filter (fun q => q.1 != p)) k = alookup pm k := by
  induction pm with
  | nil => rfl
  | cons head rest ih =>
    obtain ⟨k1, v⟩ := head
    by_cases h1 : k1 = p
    · subst h1
      simp [List.filter_cons, alookup, Ne.symm h, ih]
    · simp only [List.filter_cons]
      by_cases h2 : k1 = k
      · subst h2
        simp [alookup, h1]
      · simp [alookup, h1, h2, ih]

/-- Helper: updateBuiltin only reads the groups through the lookup at its
key. -/
theorem updateBuiltin_congr {pm1 pm2 : List (String × List String)} {k : String}
    (h : alookup pm1 k = alookup pm2 k) (e : Endpoint) :
    updateBuiltin pm1 k e = updateBuiltin pm2 k e := by
  simp only [updateBuiltin, h]

/-- Helper: updateCustom only reads the groups through the lookup at the
entry name. -/
theorem updateCustom_congr {pm1 pm2 : List (String × List String)} {c : CustomEndpoint}
    (h : alookup pm1 c.name = alookup pm2 c.name) :
    updateCustom pm1 c = updateCustom pm2 c := by
  simp only [updateCustom, h]

/-- Helper: the amended record-name wording agrees with the translated
Python expression. -/
theorem recordNameAmended_eq (r : ApiRecord) : recordNameAmended r = recordName r := by
  cases h : r.model with
  | none => simp [recordNameAmended, recordName, h]
  | some m =>
    by_cases hm : m = "" <;> simp [recordNameAmended, recordName, h, hm]

/-- Helper: mapping then filtering the names equals the foldr form of the
amended wording. -/
theorem filter_map_eq_foldr (l : List ApiRecord) :
    (l.map recordName).filter (fun m => m != "") =
      l.foldr (fun r acc => if recordNameAmended r = "" then acc else recordNameAmended r :: acc)
        [] := by
  induction l with
  | nil => rfl
  | cons r t ih =>
    simp only [List.map_cons, List.filter_cons, List.foldr_cons, recordNameAmended_eq, ih]
    by_cases h : recordName r = ""
    · simp [h]
    · simp [h]

/-- C1: for every built-in endpoint block present in the document whose
key carries a non-empty matched group, update_yaml replaces the default
model list wholesale with the matched ids in rank order and sets
titleModel to the last id exactly when the list has more than one id
(leaving the stored titleModel as it was otherwise); every custom entry
whose name carries a non-empty matched group is updated by the same
rule. -/
theorem c1_update_rule (pm : List (String × List String)) (cfg : ConfigDocument)
    (ms : List String) (hne : ms ≠ []) :
    (∀ k e, (k, e) ∈ cfg.builtins → k ∈ builtin_names → alookup pm k = some ms →
      (k, { e with
            modelsDefault := ms,
            titleModel := if 1 < ms.length then some (ms.getLastD "") else e.titleModel })
        ∈ (update_yaml pm cfg).builtins) ∧
    (∀ cs c, cfg.custom = some cs → c ∈ cs → alookup pm c.name = some ms →
      ∃ cs2, (update_yaml pm cfg).custom = some cs2 ∧
        { c with
          modelsDefault := ms,
          titleModel := if 1 < ms.length then some (ms.getLastD "") else c.titleModel } ∈ cs2) := by
  constructor
  · intro k e hmem hk hpm
    have h1 : (k, updateBuiltin pm k e) ∈ (update_yaml pm cfg).builtins := by
      simp only [update_yaml]
      exact List.mem_map_of_mem (fun p => (p.1, updateBuiltin pm p.1 p.2)) hmem
    have h2 : updateBuiltin pm k e =
        { e with
          modelsDefault := ms,
          titleModel := if 1 < ms.length then some (ms.getLastD "") else e.titleModel } := by
      simp [updateBuiltin, hk, hpm, hne]
    rwa [h2] at h1
  · intro cs c hcs hc hpm
    refine ⟨cs.map (updateCustom pm), ?_, ?_⟩
    · simp [update_yaml, hcs]
    · have h1 : updateCustom pm c ∈ cs.map (updateCustom pm) :=
        List.mem_map_of_mem (updateCustom pm) hc
      have h2 : updateCustom pm c =
          { c with
            modelsDefault := ms,
            titleModel := if 1 < ms.length then some (ms.getLastD "") else c.titleModel } := by
        simp [updateCustom, hpm, hne]
      rwa [h2] at h1

/-- C1 witness: on the sample document, the openAI block receives the
three matched ids with the last one as titleModel, and the sample custom
entry receives its single id with its titleModel untouched. -/
theorem c1_update_rule_witness :
    ("openAI", (⟨["gpt-a", "gpt-b", "gpt-c"], some "gpt-c", [("k1", "v1")]⟩ : Endpoint))
      ∈ (update_yaml pmS cfgS).builtins ∧
    (∃ cs2, (update_yaml pmS cfgS).custom = some cs2 ∧
      (⟨"google", ["gem-1"], none, []⟩ : CustomEndpoint) ∈ cs2) :=
  ⟨(c1_update_rule pmS cfgS ["gpt-a", "gpt-b", "gpt-c"] (by decide)).1 "openAI" eOpenAI
      (by decide) (by decide) (by decide),
   (c1_update_rule pmS cfgS ["gem-1"] (by decide)).2 [cGoogle] cGoogle (by decide)
      (by decide) (by decide)⟩

/-- C2: for every mapping table and fetched name sequence, the id list of
each provider group is exactly the mapped ids of the fetched names, read
in rank order (so relative rank order is preserved), and a name that is
not an exact key of the mapping contributes nothing: inserting it
anywhere leaves the resolver result unchanged. -/
theorem c2_resolver_order (mapping : List (String × MappingInfo)) (names : List String) :
    (∀ p, groupIds (resolve mapping names).1 p = idsOf mapping names p) ∧
    (∀ pre nm post, alookup mapping nm = none →
      resolve mapping (pre ++ nm :: post) = resolve mapping (pre ++ post)) := by
  constructor
  · intro p
    have h := resolve_foldl mapping names [] 0 p
    simpa [resolve, groupIds, alookup] using h
  · intro pre nm post h
    simp [resolve, List.foldl_append, List.foldl_cons, resolveStep, h]

/-- C2 witness: on the sample mapping, the two mapped names keep their
rank order in the openAI group and an unmapped name is skipped without
effect. -/
theorem c2_resolver_order_witness :
    groupIds (resolve mapS ["A", "ZZZ", "B"]).1 "openAI" = ["a-id", "b-id"] ∧
    resolve mapS (["A"] ++ "ZZZ" :: ["B"]) = resolve mapS (["A"] ++ ["B"]) :=
  ⟨((c2_resolver_order mapS ["A", "ZZZ", "B"]).1 "openAI").trans (by decide),
   (c2_resolver_order mapS []).2 ["A"] "ZZZ" ["B"] (by decide)⟩

/-- C4: a second run of main with the same world and the same mapping,
started from the file the first run leaves behind, leaves that file
content (text and document) unchanged. -/
theorem c4_idempotent (w : World) (rm : List (String × MappingInfo)) (fs : FileState) :
    (main w rm (main w rm fs).file).file = (main w rm fs).file := by
  by_cases h1 : fetch_leaderboard w = []
  · simp [main, h1]
  · by_cases h2 : (resolve (load_mapping rm) (fetch_leaderboard w)).2 = 0
    · simp [main, h1, h2]
    · simp [main, h1, h2, runUpdate, update_yaml_idem]

/-- Sample mapping sending the fetched name A to a provider absent from
the sample document. -/
def rmB : List (String × MappingInfo) := [("A", ⟨"mistral", "m-a"⟩)]

/-- C3 counterexample: with a matched group that is empty for every
endpoint of the document the claim fails twice. With no match at all the
run reports the zero-match warning, not no change (though the file is
untouched). With one match for a provider absent from the document, the
document is structurally unchanged by the update, yet the file is
rewritten in canonical form and its bytes differ from the original text,
and the run reports updated. -/
theorem c3_counterexample :
    ((main wA [] fsA).report = Report.zeroMatches ∧
      (main wA [] fsA).report ≠ Report.noChange ∧
      (main wA [] fsA).file.text = fsA.text) ∧
    ((main wA rmB fsA).report = Report.updated ∧
      (main wA rmB fsA).file.text ≠ fsA.text ∧
      update_yaml (resolve (load_mapping rmB) (fetch_leaderboard wA)).1 fsA.doc = fsA.doc) := by
  decide

/-- C3 amended: when every endpoint of the document has an empty or
missing matched group, then with zero matches the run warns and leaves
the file untouched, and with a positive match count the document is
structurally unchanged, the file is rewritten as the canonical
serialization of that unchanged document, and no change is reported
exactly when the original raw text already equals that serialization. -/
theorem c3_amended (w : World) (rm : List (String × MappingInfo)) (fs : FileState)
    (hfetch : fetch_leaderboard w ≠ [])
    (h1 : ∀ q ∈ fs.doc.builtins, q.1 ∈ builtin_names →
      (alookup (resolve (load_mapping rm) (fetch_leaderboard w)).1 q.1 = none ∨
        alookup (resolve (load_mapping rm) (fetch_leaderboard w)).1 q.1 = some []))
    (h2 : ∀ c ∈ fs.doc.custom.getD [],
      alookup (resolve (load_mapping rm) (fetch_leaderboard w)).1 c.name = none ∨
        alookup (resolve (load_mapping rm) (fetch_leaderboard w)).1 c.name = some []) :
    ((resolve (load_mapping rm) (fetch_leaderboard w)).2 = 0 →
      main w rm fs = ⟨0, fs, Report.zeroMatches⟩) ∧
    ((resolve (load_mapping rm) (fetch_leaderboard w)).2 ≠ 0 →
      (main w rm fs).exit = 0 ∧ (main w rm fs).file.doc = fs.doc ∧
      (main w rm fs).file.text = dumpConfig fs.doc ∧
      ((main w rm fs).report = Report.noChange ↔ fs.text = dumpConfig fs.doc)) := by
  have hnoop := update_noop (resolve (load_mapping rm) (fetch_leaderboard w)).1 fs.doc h1 h2
  constructor
  · intro hm
    simp [main, hfetch, hm]
  · intro hm
    have hmain : main w rm fs =
        ⟨0, ⟨dumpConfig fs.doc, fs.doc⟩,
          if fs.text = dumpConfig fs.doc then Report.noChange else Report.updated⟩ := by
      simp [main, hfetch, hm, runUpdate, hnoop]
    rw [hmain]
    refine ⟨rfl, rfl, rfl, ?_⟩
    by_cases ht : fs.text = dumpConfig fs.doc <;> simp [ht]

/-- C3 witness: on the sample inputs with an empty mapping the run ends
with exit 0, the untouched file and the zero-match warning. -/
theorem c3_amended_witness : main wA [] fsA = ⟨0, fsA, Report.zeroMatches⟩ :=
  (c3_amended wA [] fsA (by decide) (by decide) (by decide)).1 (by decide)

/-- Thirty-one primary records exercising both divergences of C5: the
first record has an empty model field next to a usable name field, and
the array is one record longer than TOP_N. -/
def dataC5 : List ApiRecord := ⟨some "", some "X"⟩ :: List.replicate 30 ⟨some "m", none⟩

/-- C5 counterexample: the script truncates to the first TOP_N records
before dropping empty names, and falls back to the name field already
when the model field is present but empty; on dataC5 it returns X
followed by twenty-nine ids, while the claim wording returns thirty ids
and no X. -/
theorem c5_counterexample :
    fetchPrimaryNames dataC5 = "X" :: List.replicate 29 "m" ∧
    primaryClaimedSpec dataC5 = List.replicate 30 "m" ∧
    fetchPrimaryNames dataC5 ≠ primaryClaimedSpec dataC5 := by
  decide

/-- C5 amended: on a decoded JSON array the primary branch returns, in
order, the non-empty names among the first TOP_N records, where a record
reads as its model field when that is present and non-empty and as its
name field (empty when absent) otherwise. -/
theorem c5_amended_primary (data : List ApiRecord) :
    fetchPrimaryNames data = primaryAmendedSpec data := by
  unfold fetchPrimaryNames primaryAmendedSpec
  exact filter_map_eq_foldr (data.take TOP_N)

/-- Fallback page on which the blob is found but its JSON parse raises,
while the model name regex still has matches. -/
def pdC6 : PageData := ⟨some false, ["A", "B"]⟩

/-- World reaching the fallback with page pdC6. -/
def wC6 : World := ⟨.ok .nonList, .ok pdC6⟩

/-- C6 counterexample: when the blob parse raises, the exception aborts
the fallback block before the second regex pass, so the fetcher returns
nothing even though the claim wording returns the regex matches. -/
theorem c6_counterexample :
    fetch_leaderboard wC6 = [] ∧ fallbackClaimedSpec pdC6 = ["A", "B"] ∧
    fetch_leaderboard wC6 ≠ fallbackClaimedSpec pdC6 := by
  decide

/-- C6 amended: when the primary try does not return and the page request
succeeds, the second regex extraction is attempted (yielding the first
TOP_N matches in document order) whenever the blob is absent or its JSON
parse succeeds; when the blob is found and its parse raises, the fallback
aborts and the fetcher returns the empty list. -/
theorem c6_amended_fallback (w : World) (pd : PageData)
    (hpage : w.pageResp = .ok pd)
    (hprim : ∀ r, primaryTry w.apiResp ≠ .value (some r)) :
    (pd.blob ≠ some false → fetch_leaderboard w = pd.modelMatches.take TOP_N) ∧
    (pd.blob = some false → fetch_leaderboard w = []) := by
  have hmatch : fetch_leaderboard w =
      (match fallbackTry w.pageResp with
       | .value (some r) => r
       | _ => []) := by
    cases hap : primaryTry w.apiResp with
    | raised => simp [fetch_leaderboard, hap]
    | value o =>
      cases o with
      | none => simp [fetch_leaderboard, hap]
      | some r => exact absurd hap (hprim r)
  constructor
  · intro hblob
    rw [hmatch, hpage]
    cases hb : pd.blob with
    | none =>
      by_cases hm : pd.modelMatches = [] <;> simp [fallbackTry, hb, hm]
    | some b =>
      cases b with
      | false => exact absurd hb hblob
      | true =>
        by_cases hm : pd.modelMatches = [] <;> simp [fallbackTry, hb, hm]
  · intro hblob
    rw [hmatch, hpage]
    simp [fallbackTry, hblob]

/-- Fallback page whose blob parses, with two regex matches. -/
def pdOkBlob : PageData := ⟨some true, ["A", "B"]⟩

/-- World whose primary request raises and whose page is pdOkBlob. -/
def wOkBlob : World := ⟨.err, .ok pdOkBlob⟩

/-- C6 witness: with a parsing blob and two matches the fetcher returns
both matches. -/
theorem c6_amended_fallback_witness : fetch_leaderboard wOkBlob = ["A", "B"] :=
  ((c6_amended_fallback wOkBlob pdOkBlob rfl (fun _ hr => Attempt.noConfusion hr)).1
    (by decide)).trans (by decide)

/-- C7: exceptions in either try block are caught inside
fetch_leaderboard, whose result is a plain list for every behaviour of
the two sources; whenever both attempts raise, fall through or yield no
names, it returns the empty list rather than raising. -/
theorem c7_no_propagation (w : World)
    (h1 : attemptYieldsNoNames (primaryTry w.apiResp))
    (h2 : attemptYieldsNoNames (fallbackTry w.pageResp)) :
    fetch_leaderboard w = [] := by
  cases hap : primaryTry w.apiResp with
  | raised =>
    cases hf : fallbackTry w.pageResp with
    | raised => simp [fetch_leaderboard, hap, hf]
    | value o =>
      cases o with
      | none => simp [fetch_leaderboard, hap, hf]
      | some l =>
        rw [hf] at h2
        simp only [attemptYieldsNoNames] at h2
        simp [fetch_leaderboard, hap, hf, h2]
  | value o =>
    cases o with
    | none =>
      cases hf : fallbackTry w.pageResp with
      | raised => simp [fetch_leaderboard, hap, hf]
      | value o2 =>
        cases o2 with
        | none => simp [fetch_leaderboard, hap, hf]
        | some l =>
          rw [hf] at h2
          simp only [attemptYieldsNoNames] at h2
          simp [fetch_leaderboard, hap, hf, h2]
    | some l =>
      rw [hap] at h1
      simp only [attemptYieldsNoNames] at h1
      simp [fetch_leaderboard, hap, h1]

/-- C7 witness: with both requests raising, the fetcher returns the empty
list. -/
theorem c7_no_propagation_witness : fetch_leaderboard ⟨Fetch.err, Fetch.err⟩ = [] :=
  c7_no_propagation ⟨Fetch.err, Fetch.err⟩ trivial trivial

/-- C8: update_yaml never creates or deletes endpoint entries (top-level
content, block count, block keys, custom presence, custom entry count and
names are preserved), never touches the opaque fields of any block or
entry, leaves every endpoint with an absent or empty matched group
entirely unchanged, and a provider group naming no endpoint of the
document has no effect at all: filtering it out of the groups leaves the
result unchanged. -/
theorem c8_frame (pm : List (String × List String)) (cfg : ConfigDocument) :
    ((update_yaml pm cfg).extra = cfg.extra) ∧
    ((update_yaml pm cfg).builtins.length = cfg.builtins.length) ∧
    (∀ i (hi : i < cfg.builtins.length) (hi2 : i < (update_yaml pm cfg).builtins.length),
      ((update_yaml pm cfg).builtins.get ⟨i, hi2⟩).1 = (cfg.builtins.get ⟨i, hi⟩).1 ∧
      ((update_yaml pm cfg).builtins.get ⟨i, hi2⟩).2.extra = (cfg.builtins.get ⟨i, hi⟩).2.extra ∧
      (untouchedKey pm (cfg.builtins.get ⟨i, hi⟩).1 →
        (update_yaml pm cfg).builtins.get ⟨i, hi2⟩ = cfg.builtins.get ⟨i, hi⟩)) ∧
    ((update_yaml pm cfg).custom = none ↔ cfg.custom = none) ∧
    (∀ cs, cfg.custom = some cs → ∃ cs2, (update_yaml pm cfg).custom = some cs2 ∧
      cs2.length = cs.length ∧
      ∀ i (hi : i < cs.length) (hi2 : i < cs2.length),
        (cs2.get ⟨i, hi2⟩).name = (cs.get ⟨i, hi⟩).name ∧
        (cs2.get ⟨i, hi2⟩).extra = (cs.get ⟨i, hi⟩).extra ∧
        (untouchedName pm (cs.get ⟨i, hi⟩).name → cs2.get ⟨i, hi2⟩ = cs.get ⟨i, hi⟩)) ∧
    (∀ p, noEndpointFor p cfg →
      update_yaml (pm.filter (fun q => q.1 != p)) cfg = update_yaml pm cfg) := by
  refine ⟨rfl, by simp [update_yaml], ?_, ?_, ?_, ?_⟩
  · intro i hi hi2
    have hget : (update_yaml pm cfg).builtins.get ⟨i, hi2⟩ =
        ((cfg.builtins.get ⟨i, hi⟩).1,
          updateBuiltin pm (cfg.builtins.get ⟨i, hi⟩).1 (cfg.builtins.get ⟨i, hi⟩).2) := by
      simp [update_yaml, List.get_eq_getElem, List.getElem_map]
    rw [hget]
    refine ⟨rfl, updateBuiltin_extra pm _ _, ?_⟩
    intro hu
    rw [updateBuiltin_untouched hu]
  · cases hc : cfg.custom <;> simp [update_yaml, hc]
  · intro cs hcs
    refine ⟨cs.map (updateCustom pm), by simp [update_yaml, hcs], by simp, ?_⟩
    intro i hi hi2
    have hget : (cs.map (updateCustom pm)).get ⟨i, hi2⟩ =
        updateCustom pm (cs.get ⟨i, hi⟩) := by
      simp [List.get_eq_getElem, List.getElem_map]
    rw [hget]
    exact ⟨updateCustom_name pm _, updateCustom_extra pm _,
      fun hu => updateCustom_untouched hu⟩
  · intro p hp
    obtain ⟨bs, cu, ex⟩ := cfg
    simp only [update_yaml, ConfigDocument.mk.injEq]
    refine ⟨?_, ?_, trivial⟩
    · apply list_map_congr
      intro q hq
      exact congrArg (Prod.mk q.1)
        (updateBuiltin_congr (alookup_filter_ne pm p q.1 (hp.1 q hq)) q.2)
    · cases cu with
      | none => rfl
      | some cs =>
        simp only [Option.map_some']
        apply congrArg
        apply list_map_congr
        intro c hc
        exact updateCustom_congr (alookup_filter_ne pm p c.name (hp.2 c hc))

/-- C8 witness: on the sample inputs the bedrock block, which has no
matched group, is unchanged in place, and filtering out the group of a
provider absent from the document does not change the update result. -/
theorem c8_frame_witness :
    (update_yaml pmS cfgS).builtins.get ⟨1, by decide⟩ =
      ("bedrock", (⟨["b1"], none, []⟩ : Endpoint)) ∧
    update_yaml (pmS.filter (fun q => q.1 != "mistral")) cfgS = update_yaml pmS cfgS := by
  constructor
  · have h := ((c8_frame pmS cfgS).2.2.1 1 (by decide) (by decide)).2.2 (Or.inl (by decide))
    exact h.trans (by decide)
  · exact (c8_frame pmS cfgS).2.2.2.2.2 "mistral" ⟨by decide, by decide⟩

/-- C9: the run exits with status 1 exactly when the fetcher returns no
names, and exits with status 0 otherwise; in particular a run whose
fetched names produce zero mapping matches ends with exit 0, the
zero-match warning and the file untouched. -/
theorem c9_exit_codes (w : World) (rm : List (String × MappingInfo)) (fs : FileState) :
    ((main w rm fs).exit = if fetch_leaderboard w = [] then 1 else 0) ∧
    (fetch_leaderboard w ≠ [] →
      (resolve (load_mapping rm) (fetch_leaderboard w)).2 = 0 →
      main w rm fs = ⟨0, fs, Report.zeroMatches⟩) := by
  by_cases h1 : fetch_leaderboard w = []
  · simp [main, h1]
  · by_cases h2 : (resolve (load_mapping rm) (fetch_leaderboard w)).2 = 0
    · simp [main, h1, h2]
    · simp [main, h1, h2]

/-- C9 witness: the sample zero-match run exits 0 with the untouched file
and the warning outcome. -/
theorem c9_exit_codes_witness :
    (main wA [] fsA).exit = 0 ∧ main wA [] fsA = ⟨0, fsA, Report.zeroMatches⟩ :=
  ⟨((c9_exit_codes wA [] fsA).1).trans (by decide),
   (c9_exit_codes wA [] fsA).2 (by decide) (by decide)⟩

/-- C10: when the primary API decodes to any JSON array, the fetcher
returns the primary result whatever the fallback page would have held
(the page source is never consulted: the result is the same for every
page outcome), and when that array yields zero usable names the fetcher
returns the empty list and the run exits with status 1. -/
theorem c10_primary_short_circuit (items : List ApiRecord) (page : Fetch PageData)
    (rm : List (String × MappingInfo)) (fs : FileState) :
    fetch_leaderboard ⟨Fetch.ok (ApiData.arr items), page⟩ = fetchPrimaryNames items ∧
    (fetchPrimaryNames items = [] →
      main ⟨Fetch.ok (ApiData.arr items), page⟩ rm fs = ⟨1, fs, Report.fetchError⟩) := by
  have h0 : fetch_leaderboard ⟨Fetch.ok (ApiData.arr items), page⟩ = fetchPrimaryNames items :=
    rfl
  refine ⟨h0, ?_⟩
  intro h
  simp [main, h0, h]

/-- C10 witness: an empty decoded array returns immediately with no names
and the run exits 1 without touching the file. -/
theorem c10_primary_short_circuit_witness :
    fetch_leaderboard ⟨Fetch.ok (ApiData.arr []), Fetch.err⟩ = [] ∧
    main ⟨Fetch.ok (ApiData.arr []), Fetch.err⟩ [] fsA = ⟨1, fsA, Report.fetchError⟩ :=
  ⟨((c10_primary_short_circuit [] Fetch.err [] fsA).1).trans (by decide),
   (c10_primary_short_circuit [] Fetch.err [] fsA).2 (by decide)⟩

end UpdateModels
